import Mathlib

/-!
Verification of the builder tool (src/main.rs): project-kind resolution,
binary-name projection, and the lint/build/run dispatcher.

The Rust program is shallowly embedded: pure functions become Lean
functions; the directory scan becomes a fold over a list of entry names;
file reads become explicit optional line lists (none models a file that
cannot be opened); a Rust panic (unwrap/expect on a failing value) is
modelled as Except.error; child-process outcomes are passed in as
explicit data.
-/

deriving instance DecidableEq for Except

namespace Builder

/-- Mirror of the Rust enum Target: one constructor per supported
ecosystem, the extension-based ones carrying the discovered source path. -/
inductive Target where
  | Cargo : Target
  | Make : Target
  | Cpp (path : String) : Target
  | C (path : String) : Target
  | Rust (path : String) : Target
  | Js (path : String) : Target
  | Lua (path : String) : Target
  | Bash (path : String) : Target
deriving DecidableEq

/-- Mirror of Target::get_filename. -/
def Target.get_filename : Target → Option String
  | .Bash x => some x
  | .Js x => some x
  | .Cpp x => some x
  | .Rust x => some x
  | .C x => some x
  | .Lua x => some x
  | .Make => some "Makefile"
  | .Cargo => some "Cargo.toml"

/-- Word character of the regex class backslash-w (ASCII range). -/
def isWordChar (c : Char) : Bool := c.isAlpha || c.isDigit || c = '_'

/-- Whitespace of the regex class backslash-s. -/
def isSpaceChar (c : Char) : Bool :=
  c = ' ' || c = '\t' || c = '\n' || c = '\r' || c = '\x0b' || c = '\x0c'

/-- Drop a literal leading character sequence, failing if it is absent. -/
def stripLead : List Char → List Char → Option (List Char)
  | [], s => some s
  | _ :: _, [] => none
  | p :: ps, c :: cs => if p = c then stripLead ps cs else none

/-- The str::starts_with test of Rust. -/
def strStarts (s p : String) : Bool := (stripLead p.toList s.toList).isSome

/-- The str::ends_with test of Rust. -/
def strEnds (s p : String) : Bool := (stripLead p.toList.reverse s.toList.reverse).isSome

/-- Anchored match of the Makefile identifier regex
(caret TARGET backslash-s* := backslash-s* capture of backslash-w+),
returning the captured group. -/
def matchMakeLine (line : String) : Option String :=
  match stripLead "TARGET".toList line.toList with
  | none => none
  | some s1 =>
    match stripLead ":=".toList (s1.dropWhile isSpaceChar) with
    | none => none
    | some s2 =>
      let w := (s2.dropWhile isSpaceChar).takeWhile isWordChar
      if w.isEmpty then none else some (String.mk w)

/-- Anchored match of the Cargo.toml identifier regex
(caret name backslash-s* = backslash-s* quoted capture of backslash-w+),
returning the captured group. -/
def matchCargoLine (line : String) : Option String :=
  match stripLead "name".toList line.toList with
  | none => none
  | some s1 =>
    match stripLead "=".toList (s1.dropWhile isSpaceChar) with
    | none => none
    | some s2 =>
      match s2.dropWhile isSpaceChar with
      | '"' :: s3 =>
        let w := s3.takeWhile isWordChar
        if w.isEmpty then none
        else match s3.dropWhile isWordChar with
          | '"' :: _ => some (String.mk w)
          | _ => none
      | _ => none

/-- First line for which the matcher yields a capture (the for-loop with
early return in get_binary). -/
def firstMatch (f : String → Option String) : List String → Option String
  | [] => none
  | l :: ls =>
    match f l with
    | some v => some v
    | none => firstMatch f ls

/-- Prefix of a string before its first dot: the result of
bin.truncate(bin.find(".").unwrap()) when the dot exists. -/
def beforeDot (x : String) : String :=
  String.mk (x.toList.takeWhile (fun c => c ≠ '.'))

/-- Mirror of Target::get_binary. The two manifest files are passed as
optional line lists (none - the file cannot be opened). A Rust panic
(unwrap on None / on a failed open) is Except.error. -/
def Target.get_binary (t : Target) (makefile cargo : Option (List String)) :
    Except String (Option String) :=
  match t with
  | .Bash x => .ok (some x)
  | .Js x => .ok (some x)
  | .Lua x => .ok (some x)
  | .Cpp x =>
    if x.toList.contains '.' then .ok (some (beforeDot x))
    else .error "unwrap on None (no dot in source path)"
  | .Rust x =>
    if x.toList.contains '.' then .ok (some (beforeDot x))
    else .error "unwrap on None (no dot in source path)"
  | .C x =>
    if x.toList.contains '.' then .ok (some (beforeDot x))
    else .error "unwrap on None (no dot in source path)"
  | .Make =>
    match makefile with
    | none => .error "unwrap on failed File::open(Makefile)"
    | some lines => .ok (firstMatch matchMakeLine lines)
  | .Cargo =>
    match cargo with
    | none => .error "unwrap on failed File::open(Cargo.toml)"
    | some lines => .ok (firstMatch matchCargoLine lines)

/-- Mirror of Target::handle_build_result. -/
def Target.handle_build_result (_t : Target) (return_code : Int)
    (_stdout : Option Nat) : Bool :=
  if return_code ≠ 0 then false else true

/-- Mirror of update_target: the candidate merge rule of the resolver. -/
def update_target (old_target new_target : Option Target) : Option Target :=
  match old_target, new_target with
  | some .Make, _ => some .Make
  | _, some .Make => some .Make
  | some .Cargo, _ => some .Cargo
  | _, some .Cargo => some .Cargo
  | _, some x => some x
  | _, _ => none

/-- Mirror of endings: classify a file name by its extension. -/
def endings (file_name : String) : Option Target :=
  if strEnds file_name ".js" then some (.Js file_name)
  else if strEnds file_name ".cpp" || strEnds file_name ".cxx" then some (.Cpp file_name)
  else if strEnds file_name ".lua" then some (.Lua file_name)
  else if strEnds file_name ".bash" || strEnds file_name ".sh" then some (.Bash file_name)
  else if strEnds file_name ".rs" then some (.Rust file_name)
  else if strEnds file_name ".c" then some (.C file_name)
  else none

/-- One step per directory entry of the resolution loop in main: Makefile
ends the scan at once, Cargo.toml folds and continues, a recognised stem
folds by extension only while no kind is set yet. -/
def scan : Option Target → List String → Option Target
  | cur, [] => cur
  | cur, entry :: rest =>
    if entry = "Makefile" then update_target cur (some .Make)
    else if entry = "Cargo.toml" then scan (update_target cur (some .Cargo)) rest
    else if cur.isNone &&
        (strStarts entry "main." || strStarts entry "index." || strStarts entry "test.") then
      scan (update_target cur (endings entry)) rest
    else scan cur rest

/-- Resolution of a directory-entry sequence, the loop of main started
from no candidate. -/
def resolve (entries : List String) : Option Target := scan none entries

/-- The three dispatcher phases. -/
inductive Phase where
  | lint : Phase
  | build : Phase
  | run : Phase
deriving DecidableEq

/-- Outcome of child.wait(): an exit code, a wait error (mapped to 127 by
map_or), or termination by signal (code() is None, so expect panics). -/
inductive WaitRes where
  | code (n : Int) : WaitRes
  | waitErr : WaitRes
  | signal : WaitRes
deriving DecidableEq

/-- Outcome of command.spawn(): failure, or a child with a wait outcome. -/
inductive Spawned where
  | err : Spawned
  | ok (w : WaitRes) : Spawned
deriving DecidableEq

/-- The four boolean flags collected from the process arguments. -/
structure Args where
  run : Bool
  build : Bool
  release : Bool
  lint : Bool
deriving DecidableEq

/-- The ambient world the dispatcher interacts with: one child outcome
per phase, and the two manifest files as optional line lists. -/
structure Env where
  lintRes : Spawned
  buildRes : Spawned
  runRes : Spawned
  makefile : Option (List String)
  cargo : Option (List String)
deriving DecidableEq

/-- Observable step of the dispatcher: a spawned command or one of the
println sites of main, one constructor per print site. -/
inductive Event where
  | msgBuildTarget (name : String) : Event
  | spawn (ph : Phase) (cmd : List String) : Event
  | msgLintDone : Event
  | msgLintFailed (n : Int) : Event
  | msgLintSpawnFail : Event
  | msgNoLintTarget : Event
  | msgBuildOk : Event
  | msgBuildFailed (n : Int) : Event
  | msgBuildSpawnFail : Event
  | msgNoBuildTarget : Event
  | msgRunTarget (bin : String) : Event
  | msgRunRet (n : Int) : Event
  | msgRunSpawnFail : Event
  | msgNoRunTargetKind (t : Target) : Event
  | msgNoRunTarget : Event
deriving DecidableEq

/-- How the process ends: Ok(()) from main, process::exit(2), or a panic. -/
inductive Term where
  | normal : Term
  | exit2 : Term
  | panic (msg : String) : Term
deriving DecidableEq

/-- Result of one phase: events then fall-through, or events then an
abort (exit or panic) that skips the rest of main. -/
inductive Step where
  | cont (events : List Event) : Step
  | abort (events : List Event) (t : Term) : Step
deriving DecidableEq

/-- Events of a phase step, whether it falls through or aborts. -/
def Step.events : Step → List Event
  | .cont es => es
  | .abort es _ => es

/-- A step that falls through to the next phase. -/
def Step.isCont : Step → Bool
  | .cont _ => true
  | .abort _ _ => false

/-- Program and argument list built in the lint phase for a target
(the first command match of main); building it evaluates
get_binary().unwrap() for the Cpp and C kinds, which can panic. -/
def lint_command (t : Target) (release : Bool) (mf cg : Option (List String)) :
    Except String (List String) :=
  match t with
  | .Make => .ok ("make" :: if release then ["lint"] else [])
  | .Cargo => .ok ["cargo", "fmt"]
  | .Cpp file =>
    match t.get_binary mf cg with
    | .error m => .error m
    | .ok none => .error "unwrap on None"
    | .ok (some bin) => .ok (["g++", file, "-o", bin] ++ if release then ["-O3"] else [])
  | .C file =>
    match t.get_binary mf cg with
    | .error m => .error m
    | .ok none => .error "unwrap on None"
    | .ok (some bin) => .ok (["gcc", file, "-o", bin] ++ if release then ["-O3"] else [])
  | .Rust file => .ok ["rustc", file]
  | .Js file => .ok ["eslint", "--env", "es6", file]
  | .Lua file => .ok ["luacheck", "-q", file]
  | .Bash file => .ok ["shellcheck", "--norc", "--severity=style", file]

/-- Program and argument list built in the build phase for a target
(the second command match of main). -/
def build_command (t : Target) (release : Bool) (mf cg : Option (List String)) :
    Except String (List String) :=
  match t with
  | .Make => .ok ("make" :: if release then ["release"] else [])
  | .Cargo => .ok (["cargo", "build"] ++ if release then ["--release"] else [])
  | .Cpp file =>
    match t.get_binary mf cg with
    | .error m => .error m
    | .ok none => .error "unwrap on None"
    | .ok (some bin) => .ok (["g++", file, "-o", bin] ++ if release then ["-O3"] else [])
  | .C file =>
    match t.get_binary mf cg with
    | .error m => .error m
    | .ok none => .error "unwrap on None"
    | .ok (some bin) => .ok (["gcc", file, "-o", bin] ++ if release then ["-O3"] else [])
  | .Rust file => .ok ["rustc", file]
  | .Js file => .ok ["eslint", "--env", "es6", file]
  | .Lua file => .ok ["luacheck", "-q", file]
  | .Bash file => .ok ["shellcheck", "--norc", "--severity=warning", file]

/-- Program and argument list built in the run phase from the already
resolved binary name (the third command match of main). -/
def run_command (t : Target) (release : Bool) (bin : String) : List String :=
  match t with
  | .Make => ["./" ++ bin]
  | .C _ => ["./" ++ bin]
  | .Cpp _ => ["./" ++ bin]
  | .Rust _ => ["./" ++ bin]
  | .Cargo => ["cargo", "run"] ++ if release then ["--release"] else []
  | .Js _ => ["node", "./" ++ bin]
  | .Lua _ => ["lua", "./" ++ bin]
  | .Bash _ => ["bash", "./" ++ bin]

/-- The expression child.wait().map_or(127, code.code().expect(msg)):
an exit code, 127 on a wait error, or a panic on a signal. -/
def waitRet (w : WaitRes) (msg : String) : Except String Int :=
  match w with
  | .code n => .ok n
  | .waitErr => .ok 127
  | .signal => .error msg

/-- The lint phase of main. -/
def lintPhase (args : Args) (target : Option Target) (env : Env) : Step :=
  if args.lint then
    match target with
    | none => .cont [.msgNoLintTarget]
    | some t =>
      match t.get_filename with
      | none => .abort [] (.panic "unwrap on None")
      | some name =>
        match lint_command t args.release env.makefile env.cargo with
        | .error m => .abort [.msgBuildTarget name] (.panic m)
        | .ok cmd =>
          match env.lintRes with
          | .err => .cont [.msgBuildTarget name, .spawn .lint cmd, .msgLintSpawnFail]
          | .ok w =>
            match waitRet w "==== Linting terminated" with
            | .error m => .abort [.msgBuildTarget name, .spawn .lint cmd] (.panic m)
            | .ok ret =>
              if t.handle_build_result ret none then
                .cont [.msgBuildTarget name, .spawn .lint cmd, .msgLintDone]
              else
                .cont [.msgBuildTarget name, .spawn .lint cmd, .msgLintFailed ret]
  else .cont []

/-- The build phase of main; the boolean is the run flag after the phase
(the source sets run = false when the build child fails). -/
def buildPhase (args : Args) (target : Option Target) (env : Env) : Step × Bool :=
  if args.build || args.release then
    match target with
    | none => (.abort [.msgNoBuildTarget] .exit2, args.run)
    | some t =>
      match t.get_filename with
      | none => (.abort [] (.panic "unwrap on None"), args.run)
      | some name =>
        match build_command t args.release env.makefile env.cargo with
        | .error m => (.abort [.msgBuildTarget name] (.panic m), args.run)
        | .ok cmd =>
          match env.buildRes with
          | .err => (.cont [.msgBuildTarget name, .spawn .build cmd, .msgBuildSpawnFail], args.run)
          | .ok w =>
            match waitRet w "==== Build terminated" with
            | .error m => (.abort [.msgBuildTarget name, .spawn .build cmd] (.panic m), args.run)
            | .ok ret =>
              if t.handle_build_result ret none then
                (.cont [.msgBuildTarget name, .spawn .build cmd, .msgBuildOk], args.run)
              else
                (.cont [.msgBuildTarget name, .spawn .build cmd, .msgBuildFailed ret], false)
  else (.cont [], args.run)

/-- The run phase of main, driven by the (possibly suppressed) run flag. -/
def runPhase (run release : Bool) (target : Option Target) (env : Env) : Step :=
  if run then
    match target with
    | none => .abort [.msgNoRunTarget] .exit2
    | some t =>
      match t.get_binary env.makefile env.cargo with
      | .error m => .abort [] (.panic m)
      | .ok none => .abort [.msgNoRunTargetKind t] .exit2
      | .ok (some bin) =>
        match env.runRes with
        | .err => .cont [.msgRunTarget bin, .spawn .run (run_command t release bin), .msgRunSpawnFail]
        | .ok w =>
          match waitRet w "==== Build terminated" with
          | .error m =>
            .abort [.msgRunTarget bin, .spawn .run (run_command t release bin)] (.panic m)
          | .ok ret =>
            .cont [.msgRunTarget bin, .spawn .run (run_command t release bin), .msgRunRet ret]
  else .cont []

/-- The dispatcher of main after resolution: lint, then build, then run,
each phase able to abort the process; the run flag out of the build
phase feeds the run phase. -/
def dispatch (args : Args) (target : Option Target) (env : Env) : List Event × Term :=
  match lintPhase args target env with
  | .abort es t => (es, t)
  | .cont es1 =>
    match buildPhase args target env with
    | (.abort es t, _) => (es1 ++ es, t)
    | (.cont es2, run2) =>
      match runPhase run2 args.release target env with
      | .abort es t => (es1 ++ es2 ++ es, t)
      | .cont es3 => (es1 ++ es2 ++ es3, .normal)

/-- Event that belongs to the run phase. -/
def isRunEvent : Event → Bool
  | .spawn .run _ => true
  | .msgRunTarget _ => true
  | .msgRunRet _ => true
  | .msgRunSpawnFail => true
  | .msgNoRunTargetKind _ => true
  | .msgNoRunTarget => true
  | _ => false

/-- Spawn of a run command. -/
def isSpawnRun : Event → Bool
  | .spawn .run _ => true
  | _ => false

/-- Spawn of any command. -/
def isSpawnAny : Event → Bool
  | .spawn _ _ => true
  | _ => false

/-- One of the three no-usable-target report messages that precede
process::exit(2). -/
def isNoTargetMsg : Event → Bool
  | .msgNoBuildTarget => true
  | .msgNoRunTarget => true
  | .msgNoRunTargetKind _ => true
  | _ => false

/-- A matcher that captures on no line of the file captures on the file. -/
theorem firstMatch_eq_none (f : String → Option String) (ls : List String)
    (h : ∀ l ∈ ls, f l = none) : firstMatch f ls = none := by
  induction ls with
  | nil => rfl
  | cons l ls ih =>
    have hl : f l = none := h l (List.mem_cons_self l ls)
    simp only [firstMatch, hl]
    exact ih fun x hx => h x (List.mem_cons_of_mem l hx)

/-- C1 counterexample: an extension-based old candidate is dropped, not
kept, when the new candidate is absent; the final catch-all arm of
update_target yields None because the arm keeping a non-dominant old
value only fires when the new value is present. -/
theorem update_target_drops_extension_candidate :
    update_target (some (Target.Rust "main.rs")) none = none
    ∧ update_target (some (Target.Rust "main.rs")) none ≠ some (Target.Rust "main.rs") := by
  decide

/-- C1 amended: with an absent new candidate, update_target keeps the old
candidate exactly when it is a dominant kind (Make or Cargo); an
extension-based old candidate is dropped and the result is None. -/
theorem update_target_none_keeps_only_dominant (x : Target) :
    update_target (some x) none =
      (match x with
       | .Make => some Target.Make
       | .Cargo => some Target.Cargo
       | _ => none) := by
  cases x <;> rfl

/-- C2 counterexample: get_binary on Rust strips the extension, so the
result for main.rs is main, not the source path unchanged. -/
theorem rust_binary_is_not_source_path :
    Target.get_binary (Target.Rust "main.rs") none none = Except.ok (some "main")
    ∧ Target.get_binary (Target.Rust "main.rs") none none ≠ Except.ok (some "main.rs") := by
  decide

/-- C2 amended: get_binary applied to Rust with source path main.rs
returns main, the path with its extension stripped, like the other
compiled kinds. -/
theorem rust_binary_strips_extension (mf cg : Option (List String)) :
    Target.get_binary (Target.Rust "main.rs") mf cg = Except.ok (some "main") := rfl

/-- C3 counterexample: when the manifest file cannot be opened (modelled
as an absent line list), get_binary for Make and Cargo panics (the
unwrap on File::open) instead of returning an absent binary name. -/
theorem manifest_open_failure_panics :
    (∃ m, Target.get_binary Target.Make none none = Except.error m)
    ∧ Target.get_binary Target.Make none none ≠ Except.ok none
    ∧ (∃ m, Target.get_binary Target.Cargo none none = Except.error m)
    ∧ Target.get_binary Target.Cargo none none ≠ Except.ok none := by
  refine ⟨⟨_, rfl⟩, by decide, ⟨_, rfl⟩, by decide⟩

/-- C3 amended: for Make and Cargo, get_binary returns an absent binary
name (None, without failing) when the manifest file opens but no line
matches the identifier pattern; when the manifest file cannot be opened
the code panics on the unwrap of File::open instead. -/
theorem manifest_binary_absent_on_no_match (mfl cgl : List String)
    (mf cg : Option (List String))
    (hm : ∀ l ∈ mfl, matchMakeLine l = none)
    (hc : ∀ l ∈ cgl, matchCargoLine l = none) :
    Target.get_binary Target.Make (some mfl) cg = Except.ok none
    ∧ Target.get_binary Target.Cargo mf (some cgl) = Except.ok none
    ∧ (∃ m, Target.get_binary Target.Make none cg = Except.error m)
    ∧ (∃ m, Target.get_binary Target.Cargo mf none = Except.error m) := by
  refine ⟨?_, ?_, ⟨_, rfl⟩, ⟨_, rfl⟩⟩
  · simp only [Target.get_binary, firstMatch_eq_none matchMakeLine mfl hm]
  · simp only [Target.get_binary, firstMatch_eq_none matchCargoLine cgl hc]

/-- C3 witness at a concrete manifest with no identifier line. -/
theorem manifest_binary_absent_on_no_match_witness :
    Target.get_binary Target.Make (some ["all: build", "X"]) none = Except.ok none
    ∧ Target.get_binary Target.Cargo none (some ["[package]"]) = Except.ok none
    ∧ (∃ m, Target.get_binary Target.Make none none = Except.error m)
    ∧ (∃ m, Target.get_binary Target.Cargo none none = Except.error m) :=
  manifest_binary_absent_on_no_match ["all: build", "X"] ["[package]"] none none
    (by decide) (by decide)

/-- C9 confirmed: get_binary strips the extension for the compiled kinds
Cpp and C (main.cpp and main.c both give main) and returns the source
path unchanged for the interpreted kinds Js, Lua and Bash. -/
theorem compiled_stripped_interpreted_unchanged (mf cg : Option (List String))
    (p : String) :
    Target.get_binary (Target.Cpp "main.cpp") mf cg = Except.ok (some "main")
    ∧ Target.get_binary (Target.C "main.c") mf cg = Except.ok (some "main")
    ∧ Target.get_binary (Target.Js p) mf cg = Except.ok (some p)
    ∧ Target.get_binary (Target.Lua p) mf cg = Except.ok (some p)
    ∧ Target.get_binary (Target.Bash p) mf cg = Except.ok (some p) :=
  ⟨rfl, rfl, rfl, rfl, rfl⟩

/-- Make wins the merge against every current candidate. -/
theorem update_target_make (cur : Option Target) :
    update_target cur (some Target.Make) = some Target.Make := by
  cases cur with
  | none => rfl
  | some t => cases t <;> rfl

/-- Cargo wins the merge against every current candidate except Make. -/
theorem update_target_cargo (cur : Option Target) (h : cur ≠ some Target.Make) :
    update_target cur (some Target.Cargo) = some Target.Cargo := by
  cases cur with
  | none => rfl
  | some t => cases t <;> first | rfl | exact absurd rfl h

/-- Folding a present candidate into an empty current keeps it. -/
theorem update_target_none_left (x : Target) :
    update_target none (some x) = some x := by
  cases x <;> rfl

/-- The extension classifier never yields the Make kind. -/
theorem update_none_endings_ne_make (e : String) :
    update_target none (endings e) ≠ some Target.Make := by
  unfold endings
  split_ifs <;> simp [update_target]

/-- Scanning any entry list that mentions Makefile ends in Make whatever
the current candidate is. -/
theorem scan_make :
    ∀ (entries : List String), "Makefile" ∈ entries →
    ∀ cur, scan cur entries = some Target.Make := by
  intro entries
  induction entries with
  | nil => intro h; cases h
  | cons e rest ih =>
    intro h cur
    by_cases he : e = "Makefile"
    · subst he
      simp only [scan, if_pos rfl]
      exact update_target_make cur
    · have hr : "Makefile" ∈ rest := by
        rcases List.mem_cons.mp h with h1 | h2
        · exact absurd h1.symm he
        · exact h2
      simp only [scan, if_neg he]
      split
      · exact ih hr _
      · split
        · exact ih hr _
        · exact ih hr _

/-- C4 confirmed: every entry sequence containing Makefile resolves to
Make; the result does not depend on what precedes or follows the
Makefile entry, so a Makefile after an already-set Cargo overrides it
and a later Cargo.toml never unseats Make. -/
theorem resolve_makefile_terminal (entries : List String)
    (h : "Makefile" ∈ entries) : resolve entries = some Target.Make :=
  scan_make entries h none

/-- C4 witness: Makefile after Cargo.toml and before main.rs still wins. -/
theorem resolve_makefile_terminal_witness :
    resolve ["Cargo.toml", "Makefile", "main.rs"] = some Target.Make :=
  resolve_makefile_terminal ["Cargo.toml", "Makefile", "main.rs"] (by decide)

/-- Invariant of the scan when no Makefile occurs: once Cargo is seen (or
already current), the scan ends in Cargo. -/
theorem scan_cargo :
    ∀ (entries : List String), "Makefile" ∉ entries →
    ∀ cur, cur ≠ some Target.Make →
    ("Cargo.toml" ∈ entries ∨ cur = some Target.Cargo) →
    scan cur entries = some Target.Cargo := by
  intro entries
  induction entries with
  | nil =>
    intro _ cur _ hdisj
    rcases hdisj with h | h
    · cases h
    · simpa [scan] using h
  | cons e rest ih =>
    intro hnm cur hcm hdisj
    have hem : e ≠ "Makefile" := fun h => hnm (h ▸ List.mem_cons_self e rest)
    have hnm' : "Makefile" ∉ rest := fun h => hnm (List.mem_cons_of_mem e h)
    simp only [scan, if_neg hem]
    by_cases hec : e = "Cargo.toml"
    · subst hec
      rw [if_pos rfl, update_target_cargo cur hcm]
      exact ih hnm' _ (by simp) (Or.inr rfl)
    · rw [if_neg hec]
      have hdisj' : "Cargo.toml" ∈ rest ∨ cur = some Target.Cargo := by
        rcases hdisj with h | h
        · rcases List.mem_cons.mp h with h1 | h2
          · exact absurd h1.symm hec
          · exact Or.inl h2
        · exact Or.inr h
      split
      · rename_i hcond
        have hcur : cur = none := by
          rcases cur with _ | t
          · rfl
          · simp at hcond
        subst hcur
        rcases hdisj' with h | h
        · exact ih hnm' _ (update_none_endings_ne_make e) (Or.inl h)
        · cases h
      · exact ih hnm' cur hcm hdisj'

/-- C7 confirmed: an entry sequence containing Cargo.toml and no Makefile
resolves to Cargo, whatever extension candidates it contains and in
whatever order they are scanned. -/
theorem resolve_cargo_without_makefile (entries : List String)
    (hc : "Cargo.toml" ∈ entries) (hm : "Makefile" ∉ entries) :
    resolve entries = some Target.Cargo :=
  scan_cargo entries hm none (by simp) (Or.inl hc)

/-- C7 witness: Cargo.toml after an already-set extension candidate. -/
theorem resolve_cargo_without_makefile_witness :
    resolve ["main.rs", "Cargo.toml", "index.js"] = some Target.Cargo :=
  resolve_cargo_without_makefile ["main.rs", "Cargo.toml", "index.js"]
    (by decide) (by decide)

/-- Entry that the scan can classify: a recognised stem together with a
recognised extension. -/
def recognized (e : String) : Bool :=
  (strStarts e "main." || strStarts e "index." || strStarts e "test.") && (endings e).isSome

/-- The six single-source scenarios of the spec and the kind each one is
expected to resolve to. -/
def sixTable : List (String × Target) :=
  [("main.rs", Target.Rust "main.rs"), ("main.cpp", Target.Cpp "main.cpp"),
   ("main.js", Target.Js "main.js"), ("main.c", Target.C "main.c"),
   ("main.lua", Target.Lua "main.lua"), ("main.sh", Target.Bash "main.sh")]

/-- Without manifest entries the scan never leaves an already-set
candidate. -/
theorem scan_some_fixed :
    ∀ (entries : List String), "Makefile" ∉ entries → "Cargo.toml" ∉ entries →
    ∀ t, scan (some t) entries = some t := by
  intro entries
  induction entries with
  | nil => intro _ _ t; rfl
  | cons e rest ih =>
    intro hm hc t
    have hem : e ≠ "Makefile" := fun h => hm (h ▸ List.mem_cons_self e rest)
    have hec : e ≠ "Cargo.toml" := fun h => hc (h ▸ List.mem_cons_self e rest)
    simp only [scan, if_neg hem, if_neg hec]
    rw [if_neg (by simp)]
    exact ih (fun h => hm (List.mem_cons_of_mem e h))
      (fun h => hc (List.mem_cons_of_mem e h)) t

/-- A lone classifiable entry among inert ones decides the resolution. -/
theorem scan_first_classified :
    ∀ (entries : List String) (name : String) (t : Target),
    (strStarts name "main." || strStarts name "index." || strStarts name "test.") = true →
    endings name = some t →
    "Makefile" ∉ entries → "Cargo.toml" ∉ entries →
    (∀ e ∈ entries, e ≠ name → recognized e = false) →
    name ∈ entries → scan none entries = some t := by
  intro entries
  induction entries with
  | nil => intro name t _ _ _ _ _ h; cases h
  | cons e rest ih =>
    intro name t hstem hend hm hc hothers hmem
    have hm' : "Makefile" ∉ rest := fun h => hm (List.mem_cons_of_mem e h)
    have hc' : "Cargo.toml" ∉ rest := fun h => hc (List.mem_cons_of_mem e h)
    have hem : e ≠ "Makefile" := fun h => hm (h ▸ List.mem_cons_self e rest)
    have hec : e ≠ "Cargo.toml" := fun h => hc (h ▸ List.mem_cons_self e rest)
    simp only [scan, if_neg hem, if_neg hec]
    by_cases he : e = name
    · subst he
      rw [if_pos (by simp [hstem]), hend, update_target_none_left t]
      exact scan_some_fixed rest hm' hc' t
    · have hrec : recognized e = false :=
        hothers e (List.mem_cons_self e rest) he
      have hmem' : name ∈ rest := by
        rcases List.mem_cons.mp hmem with h1 | h2
        · exact absurd h1.symm he
        · exact h2
      have hothers' : ∀ x ∈ rest, x ≠ name → recognized x = false :=
        fun x hx => hothers x (List.mem_cons_of_mem e hx)
      split
      · rename_i hcond
        have hcond' : (strStarts e "main." || strStarts e "index." || strStarts e "test.") = true := by
          simpa using hcond
        have hends : endings e = none := by
          cases hene : endings e with
          | none => rfl
          | some v =>
            rw [recognized, hcond', hene] at hrec
            simp at hrec
        rw [hends]
        exact ih name t hstem hend hm' hc' hothers' hmem'
      · exact ih name t hstem hend hm' hc' hothers' hmem'

/-- C8 counterexample: the entry sequence index.js then main.rs contains
exactly one of the six listed names (main.rs) and no manifest, yet it
resolves to Js carrying index.js, because the other recognised stem is
classified first and first-extension-match wins. -/
theorem index_js_preempts_lone_six_name :
    resolve ["index.js", "main.rs"] = some (Target.Js "index.js")
    ∧ resolve ["index.js", "main.rs"] ≠ some (Target.Rust "main.rs")
    ∧ ("main.rs", Target.Rust "main.rs") ∈ sixTable
    ∧ "main.rs" ∈ ["index.js", "main.rs"]
    ∧ "index.js" ∉ ["main.rs", "main.cpp", "main.js", "main.c", "main.lua", "main.sh"]
    ∧ "Makefile" ∉ ["index.js", "main.rs"]
    ∧ "Cargo.toml" ∉ ["index.js", "main.rs"] := by
  decide

/-- C8 amended: an entry sequence containing one of the six listed source
names, no manifest entry, and no other entry with a recognised stem and
extension resolves to the corresponding kind carrying that file name. -/
theorem resolve_single_recognized_source (entries : List String)
    (name : String) (t : Target) (hk : (name, t) ∈ sixTable)
    (hm : "Makefile" ∉ entries) (hc : "Cargo.toml" ∉ entries)
    (hothers : ∀ e ∈ entries, e ≠ name → recognized e = false)
    (hmem : name ∈ entries) : resolve entries = some t := by
  simp only [sixTable, List.mem_cons, List.not_mem_nil, or_false,
    Prod.mk.injEq] at hk
  rcases hk with ⟨h1, h2⟩ | ⟨h1, h2⟩ | ⟨h1, h2⟩ | ⟨h1, h2⟩ | ⟨h1, h2⟩ | ⟨h1, h2⟩ <;>
    subst h1 <;> subst h2 <;>
    exact scan_first_classified entries _ _ (by decide) (by decide) hm hc hothers hmem

/-- C8 witness: a directory with one inert entry and main.cpp. -/
theorem resolve_single_recognized_source_witness :
    resolve ["README", "main.cpp"] = some (Target.Cpp "main.cpp") :=
  resolve_single_recognized_source ["README", "main.cpp"] "main.cpp"
    (Target.Cpp "main.cpp") (by decide) (by decide) (by decide) (by decide) (by decide)

/-- Splitting a path at its first dot: the truncated text is dot-free and
the remainder starts at the first dot. -/
theorem before_dot_split (p : String) (h : p.toList.contains '.' = true) :
    (beforeDot p).toList.contains '.' = false
    ∧ p.toList = (beforeDot p).toList
        ++ '.' :: (p.toList.dropWhile (fun c => (c ≠ '.' : Bool))).tail := by
  have hbd : (beforeDot p).toList = p.toList.takeWhile (fun c => (c ≠ '.' : Bool)) := rfl
  have hmem : '.' ∈ p.toList := List.elem_iff.mp h
  have htake : ∀ x ∈ p.toList.takeWhile (fun c => (c ≠ '.' : Bool)), x ≠ '.' := by
    intro x hx
    have := List.mem_takeWhile_imp hx
    simpa using this
  have hne : p.toList.dropWhile (fun c => (c ≠ '.' : Bool)) ≠ [] := by
    intro hnil
    have happ := List.takeWhile_append_dropWhile (fun c => (c ≠ '.' : Bool)) p.toList
    rw [hnil, List.append_nil] at happ
    have hmem' : '.' ∈ p.toList.takeWhile (fun c => (c ≠ '.' : Bool)) := by
      rw [happ]; exact hmem
    exact htake '.' hmem' rfl
  have hhead := List.head_dropWhile_not (fun c => (c ≠ '.' : Bool)) p.toList hne
  have hdot : (p.toList.dropWhile (fun c => (c ≠ '.' : Bool))).head hne = '.' := by
    simpa using hhead
  have hcons : p.toList.dropWhile (fun c => (c ≠ '.' : Bool))
      = '.' :: (p.toList.dropWhile (fun c => (c ≠ '.' : Bool))).tail := by
    conv_lhs => rw [← List.head_cons_tail _ hne]
    rw [hdot]
  constructor
  · rw [hbd, Bool.eq_false_iff]
    intro hcontains
    exact htake '.' (List.elem_iff.mp hcontains) rfl
  · rw [hbd]
    conv_lhs => rw [← List.takeWhile_append_dropWhile (fun c => (c ≠ '.' : Bool)) p.toList]
    conv_lhs => rw [hcons]

/-- C10 confirmed: for the compiled kinds Cpp, C and Rust, when the
carried path contains a dot, get_binary returns the text before the
first dot (the remainder of the path starts at that dot); with no dot
the truncation index unwrap panics, so the operation needs a dot. -/
theorem compiled_binary_text_before_first_dot (p : String)
    (mf cg : Option (List String)) :
    (p.toList.contains '.' = true →
      ∃ b rest, Target.get_binary (Target.Cpp p) mf cg = Except.ok (some b)
        ∧ Target.get_binary (Target.C p) mf cg = Except.ok (some b)
        ∧ Target.get_binary (Target.Rust p) mf cg = Except.ok (some b)
        ∧ b.toList.contains '.' = false
        ∧ p.toList = b.toList ++ '.' :: rest)
    ∧ (p.toList.contains '.' = false →
      (∃ m, Target.get_binary (Target.Cpp p) mf cg = Except.error m)
      ∧ (∃ m, Target.get_binary (Target.C p) mf cg = Except.error m)
      ∧ (∃ m, Target.get_binary (Target.Rust p) mf cg = Except.error m)) := by
  constructor
  · intro h
    obtain ⟨hfree, hsplit⟩ := before_dot_split p h
    exact ⟨beforeDot p, _, by simp only [Target.get_binary]; rw [h]; simp,
      by simp only [Target.get_binary]; rw [h]; simp,
      by simp only [Target.get_binary]; rw [h]; simp, hfree, hsplit⟩
  · intro h
    exact ⟨⟨"unwrap on None (no dot in source path)", by simp only [Target.get_binary]; rw [h]; simp⟩,
      ⟨"unwrap on None (no dot in source path)", by simp only [Target.get_binary]; rw [h]; simp⟩,
      ⟨"unwrap on None (no dot in source path)", by simp only [Target.get_binary]; rw [h]; simp⟩⟩

/-- C10 witness: a multi-dot name truncates at the first dot. -/
theorem compiled_binary_text_before_first_dot_witness :
    ∃ b rest, Target.get_binary (Target.Cpp "main.test.cpp") none none = Except.ok (some b)
      ∧ Target.get_binary (Target.C "main.test.cpp") none none = Except.ok (some b)
      ∧ Target.get_binary (Target.Rust "main.test.cpp") none none = Except.ok (some b)
      ∧ b.toList.contains '.' = false
      ∧ "main.test.cpp".toList = b.toList ++ '.' :: rest :=
  (compiled_binary_text_before_first_dot "main.test.cpp" none none).1 (by decide)

/-- The lint phase emits no run-phase event. -/
theorem lintPhase_no_run (a : Args) (t : Option Target) (e : Env) :
    ((lintPhase a t e).events.all fun x => !isRunEvent x) = true := by
  unfold lintPhase
  repeat' split
  all_goals simp [Step.events, isRunEvent]

/-- The build phase emits no run-phase event. -/
theorem buildPhase_no_run (a : Args) (t : Option Target) (e : Env) :
    (((buildPhase a t e).1.events).all fun x => !isRunEvent x) = true := by
  unfold buildPhase
  repeat' split
  all_goals simp [Step.events, isRunEvent]

/-- The lint phase either falls through or panics; it never exits. -/
theorem lint_shape (a : Args) (t : Option Target) (e : Env) :
    (∃ es, lintPhase a t e = .cont es)
    ∨ (∃ es m, lintPhase a t e = .abort es (.panic m)) := by
  unfold lintPhase
  repeat' split
  all_goals first
    | exact Or.inl ⟨_, rfl⟩
    | exact Or.inr ⟨_, _, rfl⟩

/-- The build phase falls through, panics, or exits with status 2 on a
requested build with no resolved target. -/
theorem build_shape (a : Args) (t : Option Target) (e : Env) :
    (∃ es r, buildPhase a t e = (.cont es, r))
    ∨ (∃ es m r, buildPhase a t e = (.abort es (.panic m), r))
    ∨ (buildPhase a t e = (.abort [.msgNoBuildTarget] .exit2, a.run)
        ∧ (a.build || a.release) = true ∧ t = none) := by
  unfold buildPhase
  repeat' split
  all_goals first
    | exact Or.inl ⟨_, _, rfl⟩
    | exact Or.inr (Or.inl ⟨_, _, _, rfl⟩)
    | exact Or.inr (Or.inr ⟨rfl, by assumption, rfl⟩)

/-- The run phase falls through, panics, or exits with status 2 either on
no resolved target or on an absent binary name. -/
theorem run_shape (r rel : Bool) (t : Option Target) (e : Env) :
    (∃ es, runPhase r rel t e = .cont es)
    ∨ (∃ es m, runPhase r rel t e = .abort es (.panic m))
    ∨ (runPhase r rel t e = .abort [.msgNoRunTarget] .exit2 ∧ r = true ∧ t = none)
    ∨ (∃ t', runPhase r rel t e = .abort [.msgNoRunTargetKind t'] .exit2 ∧ r = true
        ∧ t = some t' ∧ Target.get_binary t' e.makefile e.cargo = Except.ok none) := by
  unfold runPhase
  repeat' split
  all_goals first
    | exact Or.inl ⟨_, rfl⟩
    | exact Or.inr (Or.inl ⟨_, _, rfl⟩)
    | exact Or.inr (Or.inr (Or.inl ⟨rfl, by assumption, rfl⟩))
    | exact Or.inr (Or.inr (Or.inr ⟨_, rfl, by assumption, rfl, by assumption⟩))

/-- The run flag out of the build phase is the requested one or false. -/
theorem build_run_flag (a : Args) (t : Option Target) (e : Env)
    (h : (buildPhase a t e).2 = true) : a.run = true := by
  unfold buildPhase at h
  repeat' split at h
  all_goals simp_all

/-- A build child that completed with a nonzero code clears the run flag
whenever the build phase falls through. -/
theorem build_cont_failed (a : Args) (t : Option Target) (e : Env) (n : Int)
    (hreq : (a.build || a.release) = true)
    (hres : e.buildRes = Spawned.ok (WaitRes.code n)) (hn : n ≠ 0) :
    ∀ es r, buildPhase a t e = (.cont es, r) → r = false := by
  intro es r h
  unfold buildPhase at h
  rw [hreq] at h
  simp only [if_pos rfl] at h
  rcases t with _ | tg
  · simp at h
  · rw [hres] at h
    simp [waitRet, Target.handle_build_result, hn] at h
    repeat' split at h
    all_goals simp_all

/-- An empty lint phase falls through with at most a report message. -/
theorem lint_none_cont (a : Args) (e : Env) :
    ∃ es, lintPhase a none e = .cont es
      ∧ (es = [] ∨ es = [Event.msgNoLintTarget]) := by
  unfold lintPhase
  split
  · exact ⟨[Event.msgNoLintTarget], rfl, Or.inr rfl⟩
  · exact ⟨[], rfl, Or.inl rfl⟩

/-- A requested build with no resolved target exits with status 2. -/
theorem build_none_exit2 (a : Args) (e : Env)
    (hreq : (a.build || a.release) = true) :
    buildPhase a none e = (.abort [Event.msgNoBuildTarget] .exit2, a.run) := by
  unfold buildPhase
  rw [hreq]
  simp

/-- An unrequested build phase is skipped. -/
theorem build_skip (a : Args) (t : Option Target) (e : Env)
    (hreq : (a.build || a.release) = false) :
    buildPhase a t e = (.cont [], a.run) := by
  unfold buildPhase
  rw [hreq]
  simp

/-- A requested run with no resolved target exits with status 2. -/
theorem run_none_exit2 (rel : Bool) (e : Env) :
    runPhase true rel none e = .abort [Event.msgNoRunTarget] .exit2 := rfl

/-- A requested run whose resolved kind has an absent binary name exits
with status 2. -/
theorem run_absent_exit2 (rel : Bool) (t' : Target) (e : Env)
    (h : Target.get_binary t' e.makefile e.cargo = Except.ok none) :
    runPhase true rel (some t') e = .abort [Event.msgNoRunTargetKind t'] .exit2 := by
  unfold runPhase
  simp [h]

/-- Falling through is having been built by cont. -/
theorem Step.isCont_iff (s : Step) : s.isCont = true ↔ ∃ es, s = .cont es := by
  cases s <;> simp [Step.isCont]

/-- Lists free of run events are free of run spawns. -/
theorem all_not_run_spawn (l : List Event)
    (h : (l.all fun x => !isRunEvent x) = true) :
    (l.all fun x => !isSpawnRun x) = true := by
  rw [List.all_eq_true] at *
  intro x hx
  have hr := h x hx
  cases x with
  | spawn ph cmd =>
    cases ph with
    | run => simp [isRunEvent] at hr
    | lint => simp [isSpawnRun]
    | build => simp [isSpawnRun]
  | _ => simp [isSpawnRun]

/-- C5 confirmed: when build (or release) is requested and the build
child completes with a nonzero exit status, the run phase is never
entered: the dispatch trace contains no run-phase event at all, so no
run command is resolved or spawned, however the run flag was set. -/
theorem run_suppressed_after_failed_build (args : Args) (target : Option Target)
    (env : Env) (n : Int) (hreq : args.build = true ∨ args.release = true)
    (hres : env.buildRes = Spawned.ok (WaitRes.code n)) (hn : n ≠ 0) :
    ((dispatch args target env).1.all fun x => !isRunEvent x) = true := by
  have hreq' : (args.build || args.release) = true := by
    rcases hreq with h | h <;> simp [h]
  rcases lint_shape args target env with ⟨es1, h1⟩ | ⟨es1, m, h1⟩
  · have hl : (es1.all fun x => !isRunEvent x) = true := by
      have hev := lintPhase_no_run args target env
      rw [h1] at hev
      simpa [Step.events] using hev
    rcases build_shape args target env with ⟨es2, r, h2⟩ | ⟨es2, m2, r, h2⟩ | ⟨h2, _, _⟩
    · have hb : (es2.all fun x => !isRunEvent x) = true := by
        have hev := buildPhase_no_run args target env
        rw [h2] at hev
        simpa [Step.events] using hev
      have hr : r = false := build_cont_failed args target env n hreq' hres hn es2 r h2
      subst hr
      simp only [dispatch, h1, h2]
      rw [show runPhase false args.release target env = .cont [] from rfl]
      simp [List.all_append, hl, hb]
    · have hb : (es2.all fun x => !isRunEvent x) = true := by
        have hev := buildPhase_no_run args target env
        rw [h2] at hev
        simpa [Step.events] using hev
      simp only [dispatch, h1, h2]
      simp [List.all_append, hl, hb]
    · simp only [dispatch, h1, h2, List.all_append, hl, Bool.true_and]
      rfl
  · simp only [dispatch, h1]
    have hev := lintPhase_no_run args target env
    rw [h1] at hev
    simpa [Step.events] using hev

/-- C5 witness: build and run requested, Cargo target, build child exits
with status 1; the trace holds no run event. -/
theorem run_suppressed_after_failed_build_witness :
    ((dispatch (Args.mk true true false false) (some Target.Cargo)
        (Env.mk .err (.ok (.code 1)) .err none none)).1.all fun x => !isRunEvent x) = true :=
  run_suppressed_after_failed_build (Args.mk true true false false) (some Target.Cargo)
    (Env.mk .err (.ok (.code 1)) .err none none) 1 (Or.inl rfl) rfl (by decide)

/-- Analysis of an exit-2 dispatch: which request produced it, that the
trace holds no run spawn (and no spawn at all with no resolved target),
and that the trace ends in a no-usable-target report message. -/
theorem exit2_analysis (a : Args) (t : Option Target) (e : Env)
    (h : (dispatch a t e).2 = Term.exit2) :
    (((a.build || a.release) = true ∧ t = none)
      ∨ (a.run = true ∧ t = none)
      ∨ (∃ t', t = some t'
          ∧ Target.get_binary t' e.makefile e.cargo = Except.ok none
          ∧ (lintPhase a t e).isCont = true
          ∧ (buildPhase a t e).1.isCont = true
          ∧ (buildPhase a t e).2 = true))
    ∧ ((dispatch a t e).1.all fun x => !isSpawnRun x) = true
    ∧ (t = none → ((dispatch a t e).1.all fun x => !isSpawnAny x) = true)
    ∧ (∃ m, (dispatch a t e).1.getLast? = some m ∧ isNoTargetMsg m = true) := by
  rcases lint_shape a t e with ⟨es1, h1⟩ | ⟨es1, m, h1⟩
  · have hl : (es1.all fun x => !isRunEvent x) = true := by
      have hev := lintPhase_no_run a t e
      rw [h1] at hev
      simpa [Step.events] using hev
    rcases build_shape a t e with ⟨es2, r, h2⟩ | ⟨es2, m2, r, h2⟩ | ⟨h2, hbreq, htn⟩
    · have hb : (es2.all fun x => !isRunEvent x) = true := by
        have hev := buildPhase_no_run a t e
        rw [h2] at hev
        simpa [Step.events] using hev
      rcases run_shape r a.release t e with ⟨es3, h3⟩ | ⟨es3, m3, h3⟩ |
        ⟨h3, hr, htn⟩ | ⟨t', h3, hr, hts, hgb⟩
      · simp only [dispatch, h1, h2, h3] at h
        simp at h
      · simp only [dispatch, h1, h2, h3] at h
        simp at h
      · subst htn
        have harun : a.run = true := build_run_flag a none e (by rw [h2]; exact hr)
        have hbr : (a.build || a.release) = false := by
          by_contra hc
          have hbt : (a.build || a.release) = true := by
            cases hv : (a.build || a.release)
            · exact absurd hv hc
            · rfl
          rw [build_none_exit2 a e hbt] at h2
          simp at h2
        rw [build_skip a none e hbr] at h2
        simp only [Prod.mk.injEq, Step.cont.injEq] at h2
        obtain ⟨hes2, hra⟩ := h2
        subst hes2
        obtain ⟨es1', hl', hor⟩ := lint_none_cont a e
        have hes := h1.symm.trans hl'
        injection hes with hes
        subst hes
        have hd : dispatch a none e = (es1 ++ [] ++ [Event.msgNoRunTarget], Term.exit2) := by
          simp only [dispatch, h1, build_skip a none e hbr, hra, h3]
        refine ⟨Or.inr (Or.inl ⟨harun, rfl⟩), ?_, fun _ => ?_,
          ⟨Event.msgNoRunTarget, ?_, rfl⟩⟩
        · rw [hd]; rcases hor with h4 | h4 <;> subst h4 <;> decide
        · rw [hd]; rcases hor with h4 | h4 <;> subst h4 <;> decide
        · rw [hd]; rcases hor with h4 | h4 <;> subst h4 <;> decide
      · have hd : dispatch a t e
            = (es1 ++ es2 ++ [Event.msgNoRunTargetKind t'], Term.exit2) := by
          simp only [dispatch, h1, h2, h3]
        refine ⟨Or.inr (Or.inr ⟨t', hts, hgb, by rw [h1]; rfl, by rw [h2]; rfl,
          by rw [h2]; exact hr⟩), ?_, ?_, ⟨Event.msgNoRunTargetKind t', ?_, rfl⟩⟩
        · rw [hd, List.all_append, List.all_append,
            all_not_run_spawn _ hl, all_not_run_spawn _ hb]
          rfl
        · intro htn
          rw [htn] at hts
          simp at hts
        · rw [hd]
          exact List.getLast?_concat _
    · simp only [dispatch, h1, h2] at h
      simp at h
    · subst htn
      obtain ⟨es1', hl', hor⟩ := lint_none_cont a e
      have hes := h1.symm.trans hl'
      injection hes with hes
      subst hes
      have hd : dispatch a none e = (es1 ++ [Event.msgNoBuildTarget], Term.exit2) := by
        simp only [dispatch, h1, h2]
      refine ⟨Or.inl ⟨hbreq, rfl⟩, ?_, fun _ => ?_,
        ⟨Event.msgNoBuildTarget, ?_, rfl⟩⟩
      · rw [hd]; rcases hor with h4 | h4 <;> subst h4 <;> decide
      · rw [hd]; rcases hor with h4 | h4 <;> subst h4 <;> decide
      · rw [hd]; rcases hor with h4 | h4 <;> subst h4 <;> decide
  · simp only [dispatch, h1] at h
    simp at h

/-- Each of the three exit-2 situations indeed ends the process with
status 2. -/
theorem exit2_sufficient (a : Args) (t : Option Target) (e : Env)
    (H : ((a.build || a.release) = true ∧ t = none)
      ∨ (a.run = true ∧ t = none)
      ∨ (∃ t', t = some t'
          ∧ Target.get_binary t' e.makefile e.cargo = Except.ok none
          ∧ (lintPhase a t e).isCont = true
          ∧ (buildPhase a t e).1.isCont = true
          ∧ (buildPhase a t e).2 = true)) :
    (dispatch a t e).2 = Term.exit2 := by
  rcases H with ⟨hreq, htn⟩ | ⟨hrun, htn⟩ | ⟨t', hts, hgb, hlc, hbc, hb2⟩
  · subst htn
    obtain ⟨es1, h1, -⟩ := lint_none_cont a e
    simp only [dispatch, h1, build_none_exit2 a e hreq]
  · subst htn
    obtain ⟨es1, h1, -⟩ := lint_none_cont a e
    by_cases hbr : (a.build || a.release) = true
    · simp only [dispatch, h1, build_none_exit2 a e hbr]
    · have hbf : (a.build || a.release) = false := by
        cases hv : (a.build || a.release)
        · rfl
        · exact absurd hv hbr
      simp only [dispatch, h1, build_skip a none e hbf, hrun, run_none_exit2]
  · obtain ⟨es1, h1⟩ := (Step.isCont_iff _).mp hlc
    obtain ⟨es2, h2'⟩ := (Step.isCont_iff _).mp hbc
    have h2 : buildPhase a t e = (.cont es2, true) := by
      rcases hp : buildPhase a t e with ⟨s, r⟩
      rw [hp] at h2' hb2
      dsimp only at h2' hb2
      rw [h2', hb2]
    subst hts
    simp only [dispatch, h1, h2, run_absent_exit2 a.release t' e hgb]

/-- C6 counterexample: run and build requested, Make resolved, manifest
open but without a TARGET line (binary name absent), build child exits
with status 1; the failed build suppresses the run phase, the process
ends normally, and no exit-2 happens although the claim requires one. -/
theorem exit_two_missed_when_failed_build_suppresses_run :
    Target.get_binary Target.Make (some ["all:"]) none = Except.ok none
    ∧ (dispatch (Args.mk true true false false) (some Target.Make)
        (Env.mk .err (.ok (.code 1)) .err (some ["all:"]) none)).2 = Term.normal
    ∧ (dispatch (Args.mk true true false false) (some Target.Make)
        (Env.mk .err (.ok (.code 1)) .err (some ["all:"]) none)).2 ≠ Term.exit2 := by
  decide

/-- C6 amended: the process ends with exit status 2 exactly when
build/release is requested with no resolved kind, run is requested with
no resolved kind, or run is requested, the resolved kind's binary name
is absent, and the run phase is actually reached (the lint and build
phases fell through and the run flag survived the build phase, that is
run was not suppressed by a failed build and no earlier phase
panicked); whenever status 2 happens, no run command was spawned, with
no resolved kind nothing was spawned at all, and the trace ends with a
report message. -/
theorem exit_status_two_characterization (args : Args) (target : Option Target)
    (env : Env) :
    ((dispatch args target env).2 = Term.exit2 ↔
      ((args.build = true ∨ args.release = true) ∧ target = none)
      ∨ (args.run = true ∧ target = none)
      ∨ (∃ t, target = some t
          ∧ Target.get_binary t env.makefile env.cargo = Except.ok none
          ∧ (lintPhase args target env).isCont = true
          ∧ (buildPhase args target env).1.isCont = true
          ∧ (buildPhase args target env).2 = true))
    ∧ ((dispatch args target env).2 = Term.exit2 →
        ((dispatch args target env).1.all fun x => !isSpawnRun x) = true
        ∧ (target = none →
            ((dispatch args target env).1.all fun x => !isSpawnAny x) = true)
        ∧ (∃ m, (dispatch args target env).1.getLast? = some m
            ∧ isNoTargetMsg m = true)) := by
  constructor
  · constructor
    · intro h
      rcases (exit2_analysis args target env h).1 with ⟨hr, htn⟩ | hrest
      · exact Or.inl ⟨by simpa using hr, htn⟩
      · exact Or.inr hrest
    · intro H
      apply exit2_sufficient
      rcases H with ⟨hr, htn⟩ | hrest
      · exact Or.inl ⟨by rcases hr with h | h <;> simp [h], htn⟩
      · exact Or.inr hrest
  · intro h
    exact (exit2_analysis args target env h).2

/-- C6 witness: run requested in an empty directory exits with status 2
having spawned nothing. -/
theorem exit_status_two_characterization_witness :
    (dispatch (Args.mk true false false false) none
      (Env.mk .err .err .err none none)).2 = Term.exit2
    ∧ ((dispatch (Args.mk true false false false) none
        (Env.mk .err .err .err none none)).1.all fun x => !isSpawnAny x) = true := by
  have H := exit_status_two_characterization (Args.mk true false false false) none
    (Env.mk .err .err .err none none)
  have h2 : (dispatch (Args.mk true false false false) none
      (Env.mk .err .err .err none none)).2 = Term.exit2 :=
    H.1.mpr (Or.inr (Or.inl ⟨rfl, rfl⟩))
  exact ⟨h2, (H.2 h2).2.1 rfl⟩

end Builder
